import Mathlib

/-!
# Verification of the TaskManager backend core (src/main.py, src/models.py)

Shallow embedding of the project/task-tracking backend:
* naive Python `datetime` values (`PyDateTime`) with the lexicographic order
  Python uses for `<` on datetimes;
* the permissive date parser `parse_date` (ISO-8601 first, then `DD.MM.YYYY`,
  else `None`), together with models of `datetime.fromisoformat`,
  `datetime.strptime(_, "%d.%m.%Y")` and `datetime.isoformat`;
* the entity rows of `models.py` (`User`, `Project`, `Branch`, `Task`) and a
  relational `Store`;
* the endpoint handlers of `main.py` as state-passing functions returning
  `Except AppException Store` (mutations) or a result DTO (reads).  A raised
  `AppException(message, status_code)` is modelled as `.error`; any other
  Python exception reaching `handle_exception` (e.g. `KeyError` on a missing
  required dict key, `AttributeError` on a broken relationship) is modelled as
  the generic 500 `internalError` that `handle_exception` produces for it.

Modelling conventions:
* `db.query(X).filter(X.k == v).first()` is `List.find?` on the store's list;
  mutation of the found row is replacement of the first matching element;
  `db.add` appends; `db.delete` removes the first matching element.
* Request dicts are records of `Option` fields: `none` is an absent key
  (`dict.get` yields `None`, `dict[k]` raises `KeyError`).
* `datetime.now()` inside a handler is modelled as an explicit `now`
  parameter (a fixed `asOf` instant).
-/

/-- A naive Python `datetime.datetime` value. -/
structure PyDateTime where
  year : Nat
  month : Nat
  day : Nat
  hour : Nat
  minute : Nat
  second : Nat
  microsecond : Nat
deriving DecidableEq, Repr

/-- Python's `<` on naive datetimes: lexicographic on
`(year, month, day, hour, minute, second, microsecond)`. -/
def PyDateTime.lt (a b : PyDateTime) : Bool :=
  if a.year ≠ b.year then decide (a.year < b.year)
  else if a.month ≠ b.month then decide (a.month < b.month)
  else if a.day ≠ b.day then decide (a.day < b.day)
  else if a.hour ≠ b.hour then decide (a.hour < b.hour)
  else if a.minute ≠ b.minute then decide (a.minute < b.minute)
  else if a.second ≠ b.second then decide (a.second < b.second)
  else decide (a.microsecond < b.microsecond)

/-- Gregorian leap year, as in Python's `calendar.isleap`. -/
def isLeap (y : Nat) : Bool :=
  (y % 4 == 0 && y % 100 != 0) || (y % 400 == 0)

/-- Days in a month, as validated by the `datetime` constructor. -/
def daysInMonth (y m : Nat) : Nat :=
  if m == 2 then (if isLeap y then 29 else 28)
  else if m == 4 || m == 6 || m == 9 || m == 11 then 30
  else 31

/-- The range checks Python's `datetime` constructor performs; a component
outside these ranges raises `ValueError`. -/
def PyDateTime.isValid (d : PyDateTime) : Bool :=
  decide (1 ≤ d.year ∧ d.year ≤ 9999 ∧ 1 ≤ d.month ∧ d.month ≤ 12 ∧
    1 ≤ d.day ∧ d.day ≤ daysInMonth d.year d.month ∧
    d.hour ≤ 23 ∧ d.minute ≤ 59 ∧ d.second ≤ 59 ∧ d.microsecond ≤ 999999)

def digitVal (c : Char) : Nat := c.toNat - 48

def allDigits (cs : List Char) : Bool := cs.all Char.isDigit

def digitsVal (cs : List Char) : Nat :=
  cs.foldl (fun acc c => acc * 10 + digitVal c) 0

/-- Running the `datetime` constructor: `ValueError` (here `none`) when a
component is out of range. -/
def mkDateTime (y mo da h mi s us : Nat) : Option PyDateTime :=
  let d : PyDateTime := ⟨y, mo, da, h, mi, s, us⟩
  if d.isValid then some d else none

/-- Time-of-day part of `datetime.fromisoformat`:
`HH:MM`, `HH:MM:SS`, or `HH:MM:SS.fff` / `HH:MM:SS.ffffff`. -/
def parseTimePart (cs : List Char) : Option (Nat × Nat × Nat × Nat) :=
  match cs with
  | [h1, h2, ':', m1, m2] =>
    if allDigits [h1, h2, m1, m2] then
      some (digitsVal [h1, h2], digitsVal [m1, m2], 0, 0)
    else none
  | [h1, h2, ':', m1, m2, ':', s1, s2] =>
    if allDigits [h1, h2, m1, m2, s1, s2] then
      some (digitsVal [h1, h2], digitsVal [m1, m2], digitsVal [s1, s2], 0)
    else none
  | h1 :: h2 :: ':' :: m1 :: m2 :: ':' :: s1 :: s2 :: '.' :: frac =>
    if allDigits [h1, h2, m1, m2, s1, s2] && allDigits frac then
      if frac.length == 3 then
        some (digitsVal [h1, h2], digitsVal [m1, m2], digitsVal [s1, s2],
          digitsVal frac * 1000)
      else if frac.length == 6 then
        some (digitsVal [h1, h2], digitsVal [m1, m2], digitsVal [s1, s2],
          digitsVal frac)
      else none
    else none
  | _ => none

/-- Model of `datetime.fromisoformat` for naive datetimes: the subset
`YYYY-MM-DD[<sep>HH:MM[:SS[.fff[fff]]]]` it accepts (and `datetime.isoformat`
produces); the separator may be any single character.  A parse or range
failure (Python raises `ValueError`) is `none`. -/
def fromisoformat (s : String) : Option PyDateTime :=
  match s.toList with
  | y1 :: y2 :: y3 :: y4 :: '-' :: m1 :: m2 :: '-' :: d1 :: d2 :: rest =>
    if allDigits [y1, y2, y3, y4, m1, m2, d1, d2] then
      let y := digitsVal [y1, y2, y3, y4]
      let mo := digitsVal [m1, m2]
      let da := digitsVal [d1, d2]
      match rest with
      | [] => mkDateTime y mo da 0 0 0 0
      | _sep :: timecs =>
        match parseTimePart timecs with
        | some (h, mi, sec, us) => mkDateTime y mo da h mi sec us
        | none => none
    else none
  | _ => none

/-- One or two leading digits (as `strptime`'s `%d` / `%m` patterns match),
greedily two when available, with the rest of the input. -/
def take12 (cs : List Char) : Option (Nat × List Char) :=
  match cs with
  | [] => none
  | [c1] => if c1.isDigit then some (digitVal c1, []) else none
  | c1 :: c2 :: rest =>
    if c1.isDigit && c2.isDigit then
      some (digitVal c1 * 10 + digitVal c2, rest)
    else if c1.isDigit then some (digitVal c1, c2 :: rest)
    else none

/-- Model of `datetime.strptime(s, "%d.%m.%Y")`: one-or-two-digit day, dot,
one-or-two-digit month, dot, one-to-four-digit year consuming the rest of the
string, then `datetime` constructor validation. -/
def strptimeDMY (s : String) : Option PyDateTime :=
  match take12 s.toList with
  | none => none
  | some (da, rest1) =>
    match rest1 with
    | '.' :: rest2 =>
      match take12 rest2 with
      | none => none
      | some (mo, rest3) =>
        match rest3 with
        | '.' :: rest4 =>
          if decide (1 ≤ rest4.length) && decide (rest4.length ≤ 4) &&
              allDigits rest4 then
            mkDateTime (digitsVal rest4) mo da 0 0 0 0
          else none
        | _ => none
    | _ => none

/-- `parse_date` from `main.py`: empty/falsy input is `None`; otherwise try
ISO-8601 (`datetime.fromisoformat`), and on `ValueError` try `DD.MM.YYYY`
(`datetime.strptime(_, "%d.%m.%Y")`), and on `ValueError` return `None`. -/
def parse_date (date_str : String) : Option PyDateTime :=
  if date_str.isEmpty then none
  else
    match fromisoformat date_str with
    | some d => some d
    | none => strptimeDMY date_str

/-- Left-pad the decimal representation of `n` with zeros to `width`. -/
def padNum (width n : Nat) : String :=
  String.mk (List.replicate (width - (toString n).length) '0') ++ toString n

/-- Model of `datetime.isoformat()` on a naive datetime: default separator
`T`, fractional part only when `microsecond` is nonzero. -/
def PyDateTime.isoformat (d : PyDateTime) : String :=
  padNum 4 d.year ++ "-" ++ padNum 2 d.month ++ "-" ++ padNum 2 d.day ++ "T" ++
  padNum 2 d.hour ++ ":" ++ padNum 2 d.minute ++ ":" ++ padNum 2 d.second ++
  (if d.microsecond ≠ 0 then "." ++ padNum 6 d.microsecond else "")

/-! ## Entity rows (src/models.py) and the relational store

Only columns read or written by the modelled handlers are included; the
audit columns `created_at` / `updated_at` (maintained by the ORM, read by no
handler logic) are omitted. -/

namespace TaskManager

/-- A row of `users` (src/models.py `User`). -/
structure User where
  id : Int
  login : String
  email : String
  role : String
deriving DecidableEq, Repr

/-- A row of `projects` (src/models.py `Project`); `members` holds the user
ids related through the `user_project` association table. -/
structure Project where
  id : Int
  name : String
  description : String
  avatar_url : Option String
  is_active : Bool
  created_by : Option Int
  members : List Int
deriving DecidableEq, Repr

/-- A row of `branches` (src/models.py `Branch`). -/
structure Branch where
  id : String
  name : String
  description : Option String
  project_id : Int
  active : Bool
deriving DecidableEq, Repr

/-- A row of `tasks` (src/models.py `Task`). -/
structure Task where
  id : String
  name : String
  description : Option String
  parent_id : Option String
  branch_id : String
  assigned_to_id : Option Int
  done : Bool
  has_problem : Bool
  problem_message : Option String
  start_date : Option PyDateTime
  end_date : Option PyDateTime
  skill_id : Option Int
  file : Option String
deriving DecidableEq, Repr

/-- The relational store the handlers read and mutate. -/
structure Store where
  users : List User
  projects : List Project
  branches : List Branch
  tasks : List Task
deriving DecidableEq, Repr

/-- `AppException(message, status_code)` from src/utils.py; `handle_exception`
maps it to an HTTP response with that status. -/
structure AppException where
  message : String
  status_code : Nat
deriving DecidableEq, Repr

instance [DecidableEq e] [DecidableEq a] : DecidableEq (Except e a) := fun x y =>
  match x, y with
  | .ok v, .ok w =>
    if h : v = w then .isTrue (by rw [h]) else .isFalse (by simp [h])
  | .error v, .error w =>
    if h : v = w then .isTrue (by rw [h]) else .isFalse (by simp [h])
  | .ok _, .error _ => .isFalse (by simp)
  | .error _, .ok _ => .isFalse (by simp)

/-- The 500 response `handle_exception` produces for any non-`AppException`
Python exception (`KeyError`, `AttributeError`, ...). -/
def internalError : AppException :=
  { message := "Internal server error", status_code := 500 }

/-- Truthiness of `dict.get(key)` for a string-valued key: `None` (absent)
and the empty string are falsy. -/
def truthyStr : Option String → Bool
  | none => false
  | some s => !s.isEmpty

/-- Replace the first element satisfying `key` (mutation of the row returned
by `.first()`). -/
def updateFirst (key : α → Bool) (f : α → α) : List α → List α
  | [] => []
  | x :: xs => if key x then f x :: xs else x :: updateFirst key f xs

/-- Remove the first element satisfying `key` (`db.delete` on the row
returned by `.first()`). -/
def removeFirst (key : α → Bool) : List α → List α
  | [] => []
  | x :: xs => if key x then xs else x :: removeFirst key xs

/-! ## Request payloads -/

/-- The `task_data` dict of `add_task` / `edit_task_in_branch`: each field is
`some v` when the key is present and `none` when absent. -/
structure TaskData where
  title : Option String
  description : Option String
  assignedTo : Option Int
  skillId : Option Int
  startDate : Option String
  endDate : Option String
  file : Option String
  problemMessage : Option String
  done : Option Bool
  hasProblem : Option Bool
deriving DecidableEq, Repr

/-- The `branch_data` dict of `edit_project_branch`. -/
structure BranchEditData where
  id : Option String
  name : Option String
  description : Option String
deriving DecidableEq, Repr

/-! ## Handlers (src/main.py) -/

/-- `add_branch` (POST `/project/{project_id}/branch`): fresh uuid passed in
as `new_id`. -/
def add_branch (project_id : Int) (name : Option String) (current_user : Int)
    (new_id : String) (db : Store) : Except AppException Store :=
  match db.projects.find? (fun p => p.id == project_id) with
  | none => .error { message := "Project not found", status_code := 404 }
  | some project =>
    if current_user ∈ project.members then
      match name with
      | none => .error internalError
      | some nm =>
        let newBranch : Branch :=
          { id := new_id, name := nm, description := none,
            project_id := project_id, active := true }
        .ok { db with branches := db.branches ++ [newBranch] }
    else .error { message := "Not authorized to add branches", status_code := 403 }

/-- `edit_project_branch` (POST `/project/{project_id}/branch/edit`). -/
def edit_project_branch (project_id : Int) (branch_data : BranchEditData)
    (current_user : Int) (db : Store) : Except AppException Store :=
  match branch_data.id with
  | none => .error internalError
  | some bid =>
    match db.branches.find? (fun b => b.id == bid) with
    | none => .error { message := "Branch not found", status_code := 404 }
    | some branch =>
      if branch.project_id != project_id then
        .error { message := "Branch not found", status_code := 404 }
      else
        match db.projects.find? (fun p => p.id == branch.project_id) with
        | none => .error internalError
        | some project =>
          if current_user ∈ project.members then
            match branch_data.name with
            | none => .error internalError
            | some nm =>
              let upd := fun (b : Branch) =>
                { b with name := nm, description := branch_data.description }
              .ok { db with
                branches := updateFirst (fun b => b.id == bid) upd db.branches }
          else .error { message := "Not authorized to edit branches", status_code := 403 }

/-- `delete_project_branch` (POST `/project/{project_id}/branch/delete`).
The storage layer's handling of the orphaned tasks is modelled as the cascade
the data model prescribes (deleting a branch deletes its owned tasks). -/
def delete_project_branch (project_id : Int) (branchId : Option String)
    (current_user : Int) (db : Store) : Except AppException Store :=
  match branchId with
  | none => .error internalError
  | some bid =>
    match db.branches.find? (fun b => b.id == bid) with
    | none => .error { message := "Branch not found", status_code := 404 }
    | some branch =>
      if branch.project_id != project_id then
        .error { message := "Branch not found", status_code := 404 }
      else
        match db.projects.find? (fun p => p.id == branch.project_id) with
        | none => .error internalError
        | some project =>
          if current_user ∈ project.members then
            .ok { db with
              branches := removeFirst (fun b => b.id == bid) db.branches,
              tasks := db.tasks.filter (fun t => !(t.branch_id == bid)) }
          else .error { message := "Not authorized to delete branches", status_code := 403 }

/-- `add_task` (POST `/project/{project_id}/branch/{branch_id}`): fresh uuid
passed in as `new_id`.  The date block is translated verbatim, including the
slip that the `endDate` branch parses `task_data["startDate"]` — so a truthy
`endDate` with an absent `startDate` key raises `KeyError` (a 500). -/
def add_task (project_id : Int) (branch_id : String) (task_data : TaskData)
    (current_user : Int) (new_id : String) (db : Store) :
    Except AppException Store :=
  match db.branches.find? (fun b => b.id == branch_id) with
  | none => .error { message := "Branch not found", status_code := 404 }
  | some branch =>
    if branch.project_id != project_id then
      .error { message := "Branch not found", status_code := 404 }
    else
      match db.projects.find? (fun p => p.id == branch.project_id) with
      | none => .error internalError
      | some project =>
        if current_user ∈ project.members then
          let start_date :=
            if truthyStr task_data.startDate then
              parse_date (task_data.startDate.getD "")
            else none
          if truthyStr task_data.endDate ∧ task_data.startDate = none then
            .error internalError
          else
            let end_date :=
              if truthyStr task_data.endDate then
                parse_date (task_data.startDate.getD "")
              else none
            match task_data.title, task_data.description with
            | some title, some desc =>
              let newTask : Task :=
                { id := new_id, name := title, description := some desc,
                  parent_id := none, branch_id := branch_id,
                  assigned_to_id := task_data.assignedTo,
                  done := task_data.done.getD false,
                  has_problem := task_data.hasProblem.getD false,
                  problem_message := task_data.problemMessage,
                  start_date := start_date, end_date := end_date,
                  skill_id := task_data.skillId, file := task_data.file }
              .ok { db with tasks := db.tasks ++ [newTask] }
            | _, _ => .error internalError
        else .error { message := "Not authorized to add tasks", status_code := 403 }

/-- The field assignments of `edit_task_in_branch` on the target row:
dates only when the corresponding input is truthy, the remaining fields
unconditionally from the request dict (`dict.get`, absent becoming `None`;
`title` and `description` are required keys). -/
def editUpdate (task_data : TaskData) (title desc : String) (t : Task) : Task :=
  { t with
    start_date :=
      if truthyStr task_data.startDate then
        parse_date (task_data.startDate.getD "")
      else t.start_date,
    end_date :=
      if truthyStr task_data.endDate then
        parse_date (task_data.endDate.getD "")
      else t.end_date,
    name := title,
    description := some desc,
    assigned_to_id := task_data.assignedTo,
    skill_id := task_data.skillId,
    file := task_data.file,
    problem_message := task_data.problemMessage }

/-- `edit_task_in_branch`
(POST `/project/{project_id}/branch/{branch_id}/task/{task_id}`). -/
def edit_task_in_branch (project_id : Int) (branch_id task_id : String)
    (task_data : TaskData) (current_user : Int) (db : Store) :
    Except AppException Store :=
  match db.tasks.find? (fun t => t.id == task_id) with
  | none => .error { message := "Task not found", status_code := 404 }
  | some task =>
    if task.branch_id != branch_id then
      .error { message := "Task not found", status_code := 404 }
    else
      match db.branches.find? (fun b => b.id == task.branch_id) with
      | none => .error internalError
      | some branch =>
        match db.projects.find? (fun p => p.id == branch.project_id) with
        | none => .error internalError
        | some project =>
          if current_user ∈ project.members then
            match task_data.title, task_data.description with
            | some title, some desc =>
              .ok { db with
                tasks := updateFirst (fun t => t.id == task_id)
                  (editUpdate task_data title desc) db.tasks }
            | _, _ => .error internalError
          else .error { message := "Not authorized to edit tasks", status_code := 403 }

/-- `delete_task_in_branch`
(POST `/project/{project_id}/branch/{branch_id}/task/{task_id}/delete`). -/
def delete_task_in_branch (project_id : Int) (branch_id task_id : String)
    (current_user : Int) (db : Store) : Except AppException Store :=
  match db.tasks.find? (fun t => t.id == task_id) with
  | none => .error { message := "Task not found", status_code := 404 }
  | some task =>
    if task.branch_id != branch_id then
      .error { message := "Task not found", status_code := 404 }
    else
      match db.branches.find? (fun b => b.id == task.branch_id) with
      | none => .error internalError
      | some branch =>
        match db.projects.find? (fun p => p.id == branch.project_id) with
        | none => .error internalError
        | some project =>
          if current_user ∈ project.members then
            .ok { db with tasks := removeFirst (fun t => t.id == task_id) db.tasks }
          else .error { message := "Not authorized to delete tasks", status_code := 403 }

/-- The field assignments of `done_task_in_branch`:
`task.done = True; task.has_problem = False; task.problem_message = m`. -/
def doneUpdate (m : String) (t : Task) : Task :=
  { t with done := true, has_problem := false, problem_message := some m }

/-- The field assignments of `problem_task_in_branch`:
`task.has_problem = True; task.done = False; task.problem_message = m`. -/
def problemUpdate (m : String) (t : Task) : Task :=
  { t with has_problem := true, done := false, problem_message := some m }

/-- `done_task_in_branch`
(POST `/project/{project_id}/branch/{branch_id}/task/{task_id}/done`):
sets `done = True`, `has_problem = False`, `problem_message = problemMessage`. -/
def done_task_in_branch (project_id : Int) (branch_id task_id : String)
    (problemMessage : String) (current_user : Int) (db : Store) :
    Except AppException Store :=
  match db.tasks.find? (fun t => t.id == task_id) with
  | none => .error { message := "Task not found", status_code := 404 }
  | some task =>
    if task.branch_id != branch_id then
      .error { message := "Task not found", status_code := 404 }
    else
      match db.branches.find? (fun b => b.id == task.branch_id) with
      | none => .error internalError
      | some branch =>
        match db.projects.find? (fun p => p.id == branch.project_id) with
        | none => .error internalError
        | some project =>
          if current_user ∈ project.members then
            .ok { db with
              tasks := updateFirst (fun t => t.id == task_id)
                (doneUpdate problemMessage) db.tasks }
          else .error { message := "Not authorized to modify tasks", status_code := 403 }

/-- `problem_task_in_branch`
(POST `/project/{project_id}/branch/{branch_id}/task/{task_id}/problem`):
sets `has_problem = True`, `done = False`, `problem_message = problemMessage`. -/
def problem_task_in_branch (project_id : Int) (branch_id task_id : String)
    (problemMessage : String) (current_user : Int) (db : Store) :
    Except AppException Store :=
  match db.tasks.find? (fun t => t.id == task_id) with
  | none => .error { message := "Task not found", status_code := 404 }
  | some task =>
    if task.branch_id != branch_id then
      .error { message := "Task not found", status_code := 404 }
    else
      match db.branches.find? (fun b => b.id == task.branch_id) with
      | none => .error internalError
      | some branch =>
        match db.projects.find? (fun p => p.id == branch.project_id) with
        | none => .error internalError
        | some project =>
          if current_user ∈ project.members then
            .ok { db with
              tasks := updateFirst (fun t => t.id == task_id)
                (problemUpdate problemMessage) db.tasks }
          else .error { message := "Not authorized to modify tasks", status_code := 403 }

/-- `add_user_to_project` (POST `/projects/{project_id}/users`). -/
def add_user_to_project (project_id : Int) (userId : Int) (current_user : Int)
    (db : Store) : Except AppException Store :=
  match db.projects.find? (fun p => p.id == project_id) with
  | none => .error { message := "Project not found", status_code := 404 }
  | some project =>
    if current_user ∈ project.members then
      match db.users.find? (fun v => v.id == userId) with
      | none => .error { message := "User not found", status_code := 404 }
      | some v =>
        if v.id ∈ project.members then
          .error { message := "User is already a member of this project",
                   status_code := 400 }
        else
          let upd := fun (p : Project) => { p with members := p.members ++ [v.id] }
          .ok { db with
            projects := updateFirst (fun p => p.id == project.id) upd db.projects }
    else .error { message := "Not authorized to add users", status_code := 403 }

/-! ## `get_project_info` (GET `/project/{project_id}`): the aggregation. -/

/-- The task DTO built inside `get_project_info` (and `get_user_tasks`);
dates are serialised with `isoformat`. -/
structure TaskDTO where
  taskId : String
  title : String
  description : Option String
  startDate : Option String
  endDate : Option String
  done : Bool
  hasProblem : Bool
  problemMessage : Option String
  skillId : Option Int
  assignedTo : Option Int
  file : Option String
deriving DecidableEq, Repr

def mkTaskDTO (t : Task) : TaskDTO :=
  { taskId := t.id, title := t.name, description := t.description,
    startDate := t.start_date.map PyDateTime.isoformat,
    endDate := t.end_date.map PyDateTime.isoformat,
    done := t.done, hasProblem := t.has_problem,
    problemMessage := t.problem_message, skillId := t.skill_id,
    assignedTo := t.assigned_to_id, file := t.file }

/-- The four counters of a `statistics` object. -/
structure Statistics where
  taskCount : Nat
  completedTasksCount : Nat
  delayedTasksCount : Nat
  problemTasksCount : Nat
deriving DecidableEq, Repr

/-- Project-level delayed test on the row:
`task.end_date and task.end_date < now and not task.done`. -/
def taskDelayed (t : Task) (now : PyDateTime) : Bool :=
  match t.end_date with
  | none => false
  | some d => d.lt now && !t.done

/-- Branch-level delayed test on the DTO:
`t["endDate"] and datetime.fromisoformat(t["endDate"]) < now and not t["done"]`.
When `fromisoformat` fails Python would raise (a 500); that branch is
unreachable for strings produced by `isoformat` on stored datetimes. -/
def dtoDelayed (t : TaskDTO) (now : PyDateTime) : Bool :=
  match t.endDate with
  | none => false
  | some s =>
    if s.isEmpty then false
    else
      match fromisoformat s with
      | none => false
      | some d => d.lt now && !t.done

/-- The per-branch `statistics` dict: counts over the branch's DTO list. -/
def branchStatistics (dtos : List TaskDTO) (now : PyDateTime) : Statistics :=
  { taskCount := dtos.length,
    completedTasksCount := dtos.countP (fun t => t.done),
    delayedTasksCount := dtos.countP (fun t => dtoDelayed t now),
    problemTasksCount := dtos.countP (fun t => t.hasProblem) }

/-- `db.query(Task).filter(Task.branch_id == branch.id).all()`. -/
def tasksOf (db : Store) (bid : String) : List Task :=
  db.tasks.filter (fun t => t.branch_id == bid)

/-- The branch DTO built per branch in the loop. -/
structure BranchDTO where
  branchId : String
  name : String
  tasks : List TaskDTO
  statistics : Statistics
deriving DecidableEq, Repr

def mkBranchDTO (db : Store) (now : PyDateTime) (b : Branch) : BranchDTO :=
  let dtos := (tasksOf db b.id).map mkTaskDTO
  { branchId := b.id, name := b.name, tasks := dtos,
    statistics := branchStatistics dtos now }

/-- One step of the project-level counter accumulation (the four `+= 1`
statements of the task loop). -/
def taskStep (now : PyDateTime) (acc : Statistics) (t : Task) : Statistics :=
  { taskCount := acc.taskCount + 1,
    completedTasksCount := acc.completedTasksCount + (if t.done then 1 else 0),
    delayedTasksCount :=
      acc.delayedTasksCount + (if taskDelayed t now then 1 else 0),
    problemTasksCount :=
      acc.problemTasksCount + (if t.has_problem then 1 else 0) }

/-- The nested loop accumulating the project-level counters, starting from
`total_tasks = completed_tasks = delayed_tasks = problem_tasks = 0`. -/
def projectCounters (db : Store) (now : PyDateTime) (branches : List Branch) :
    Statistics :=
  branches.foldl (fun acc b => (tasksOf db b.id).foldl (taskStep now) acc)
    ⟨0, 0, 0, 0⟩

/-- The part of the `get_project_info` response the claims are about. -/
structure ProjectInfo where
  projectId : Int
  branches : List BranchDTO
  statistics : Statistics
deriving DecidableEq, Repr

/-- `get_project_info` (GET `/project/{project_id}`); `now` is the fixed
`asOf` instant standing for the `datetime.now()` calls. -/
def get_project_info (project_id : Int) (current_user : Int)
    (now : PyDateTime) (db : Store) : Except AppException ProjectInfo :=
  match db.projects.find? (fun p => p.id == project_id) with
  | none => .error { message := "Project not found", status_code := 404 }
  | some project =>
    if current_user ∈ project.members then
      let branches := db.branches.filter (fun b => b.project_id == project_id)
      .ok { projectId := project.id,
            branches := branches.map (mkBranchDTO db now),
            statistics := projectCounters db now branches }
    else .error { message := "Not authorized to view this project", status_code := 403 }

/-! ## Helper lemmas -/

theorem updateFirst_find? (key : α → Bool) (f : α → α) (l : List α)
    (hf : ∀ a, key (f a) = key a) :
    (updateFirst key f l).find? key = (l.find? key).map f := by
  induction l with
  | nil => rfl
  | cons x xs ih =>
    by_cases hx : key x
    · simp [updateFirst, hx, List.find?_cons_of_pos, hf]
    · simp only [updateFirst, hx, if_false, Bool.false_eq_true]
      rw [List.find?_cons_of_neg _ (by simp [hx]),
        List.find?_cons_of_neg _ (by simp [hx]), ih]

theorem updateFirst_forall₂ (R : α → α → Prop) (key : α → Bool) (f : α → α)
    (l : List α) (hrefl : ∀ x, R x x) (hupd : ∀ x, key x = true → R x (f x)) :
    List.Forall₂ R l (updateFirst key f l) := by
  induction l with
  | nil => exact List.Forall₂.nil
  | cons x xs ih =>
    by_cases hx : key x
    · simp only [updateFirst, hx, if_true]
      exact List.Forall₂.cons (hupd x hx)
        (List.forall₂_same.mpr (fun y _ => hrefl y))
    · simp only [updateFirst, hx, if_false]
      exact List.Forall₂.cons (hrefl x) ih

/-- Dissection of a successful `done_task_in_branch` call. -/
theorem done_task_ok_elim (pid : Int) (bid tid m : String) (u : Int)
    (db db' : Store) (h : done_task_in_branch pid bid tid m u db = .ok db') :
    ∃ task, db.tasks.find? (fun t => t.id == tid) = some task ∧
      db' = { db with
        tasks := updateFirst (fun t => t.id == tid) (doneUpdate m) db.tasks } := by
  simp only [done_task_in_branch] at h
  split at h
  · simp at h
  next task hfind =>
    split at h
    · simp at h
    · split at h
      · simp at h
      next branch hbr =>
        split at h
        · simp at h
        next project hproj =>
          split at h
          next hmem =>
            simp only [Except.ok.injEq] at h
            exact ⟨task, hfind, h.symm⟩
          next hmem => simp at h

/-- Dissection of a successful `problem_task_in_branch` call. -/
theorem problem_task_ok_elim (pid : Int) (bid tid m : String) (u : Int)
    (db db' : Store) (h : problem_task_in_branch pid bid tid m u db = .ok db') :
    ∃ task, db.tasks.find? (fun t => t.id == tid) = some task ∧
      db' = { db with
        tasks := updateFirst (fun t => t.id == tid) (problemUpdate m) db.tasks } := by
  simp only [problem_task_in_branch] at h
  split at h
  · simp at h
  next task hfind =>
    split at h
    · simp at h
    · split at h
      · simp at h
      next branch hbr =>
        split at h
        · simp at h
        next project hproj =>
          split at h
          next hmem =>
            simp only [Except.ok.injEq] at h
            exact ⟨task, hfind, h.symm⟩
          next hmem => simp at h

/-! ## A concrete sample store used by witnesses and counterexamples -/

def task1 : Task :=
  { id := "t1", name := "T1", description := some "d1", parent_id := none,
    branch_id := "b1", assigned_to_id := some 5, done := false,
    has_problem := true, problem_message := some "old",
    start_date := some ⟨2024, 1, 1, 0, 0, 0, 0⟩,
    end_date := some ⟨2024, 2, 1, 0, 0, 0, 0⟩, skill_id := some 7,
    file := some "f.txt" }

def task2 : Task :=
  { id := "t2", name := "T2", description := none, parent_id := none,
    branch_id := "b2", assigned_to_id := none, done := true,
    has_problem := false, problem_message := none, start_date := none,
    end_date := some ⟨2024, 6, 1, 0, 0, 0, 0⟩, skill_id := none, file := none }

def task9 : Task :=
  { id := "t9", name := "T9", description := none, parent_id := none,
    branch_id := "b9", assigned_to_id := none, done := false,
    has_problem := false, problem_message := none, start_date := none,
    end_date := none, skill_id := none, file := none }

def branch1 : Branch :=
  { id := "b1", name := "B1", description := none, project_id := 10, active := true }

def branch2 : Branch :=
  { id := "b2", name := "B2", description := none, project_id := 10, active := true }

def branch9 : Branch :=
  { id := "b9", name := "B9", description := none, project_id := 99, active := true }

def user1 : User := { id := 1, login := "alice", email := "alice@x.com", role := "USER" }

def user2 : User := { id := 2, login := "bob", email := "bob@x.com", role := "USER" }

def project10 : Project :=
  { id := 10, name := "Alpha", description := "demo", avatar_url := none,
    is_active := true, created_by := some 1, members := [1] }

def exDb : Store :=
  { users := [user1, user2], projects := [project10],
    branches := [branch1, branch2, branch9], tasks := [task1, task2, task9] }

def exDbDone : Store :=
  { exDb with
    tasks := updateFirst (fun t => t.id == "t1") (doneUpdate "msg") exDb.tasks }

def exDbProblem : Store :=
  { exDb with
    tasks := updateFirst (fun t => t.id == "t1") (problemUpdate "msg") exDb.tasks }

/-! ## Claim C2 -/

/-- C2: after `markDone(t, m)` succeeds, the task has `done = true`,
`hasProblem = false` and `problemMessage = m`; after `markProblem(t, m)`
succeeds, it has `hasProblem = true`, `done = false` and
`problemMessage = m`. -/
theorem markDone_markProblem_set_flags_and_message (pid : Int)
    (bid tid m : String) (u : Int) (db db₁ db₂ : Store)
    (h1 : done_task_in_branch pid bid tid m u db = .ok db₁)
    (h2 : problem_task_in_branch pid bid tid m u db = .ok db₂) :
    (∃ t, db₁.tasks.find? (fun t => t.id == tid) = some t ∧
      t.done = true ∧ t.has_problem = false ∧ t.problem_message = some m) ∧
    (∃ t, db₂.tasks.find? (fun t => t.id == tid) = some t ∧
      t.has_problem = true ∧ t.done = false ∧ t.problem_message = some m) := by
  obtain ⟨task, hfind, hdb⟩ := done_task_ok_elim pid bid tid m u db db₁ h1
  obtain ⟨task2, hfind2, hdb2⟩ := problem_task_ok_elim pid bid tid m u db db₂ h2
  constructor
  · refine ⟨doneUpdate m task, ?_, rfl, rfl, rfl⟩
    rw [hdb]
    show (updateFirst (fun t => t.id == tid) (doneUpdate m) db.tasks).find? _ = _
    rw [updateFirst_find? (fun x => x.id == tid) (doneUpdate m) db.tasks
      (fun a => rfl), hfind]
    rfl
  · refine ⟨problemUpdate m task2, ?_, rfl, rfl, rfl⟩
    rw [hdb2]
    show (updateFirst (fun t => t.id == tid) (problemUpdate m) db.tasks).find? _ = _
    rw [updateFirst_find? (fun x => x.id == tid) (problemUpdate m) db.tasks
      (fun a => rfl), hfind2]
    rfl

theorem markDone_markProblem_set_flags_and_message_witness :
    (∃ t, exDbDone.tasks.find? (fun t => t.id == "t1") = some t ∧
      t.done = true ∧ t.has_problem = false ∧ t.problem_message = some "msg") ∧
    (∃ t, exDbProblem.tasks.find? (fun t => t.id == "t1") = some t ∧
      t.has_problem = true ∧ t.done = false ∧ t.problem_message = some "msg") :=
  markDone_markProblem_set_flags_and_message 10 "b1" "t1" "msg" 1 exDb
    exDbDone exDbProblem (by rfl) (by rfl)

/-! ## Claim C7 -/

/-- C7: after any successful `markDone` or `markProblem`, the target task
never has `done` and `hasProblem` both true, whatever its prior flags. -/
theorem state_transitions_enforce_mutual_exclusion (pid : Int)
    (bid tid m : String) (u : Int) (db db₁ db₂ : Store)
    (h1 : done_task_in_branch pid bid tid m u db = .ok db₁)
    (h2 : problem_task_in_branch pid bid tid m u db = .ok db₂) :
    (∀ t, db₁.tasks.find? (fun t => t.id == tid) = some t →
      ¬(t.done = true ∧ t.has_problem = true)) ∧
    (∀ t, db₂.tasks.find? (fun t => t.id == tid) = some t →
      ¬(t.done = true ∧ t.has_problem = true)) := by
  obtain ⟨task, hfind, hdb⟩ := done_task_ok_elim pid bid tid m u db db₁ h1
  obtain ⟨task2, hfind2, hdb2⟩ := problem_task_ok_elim pid bid tid m u db db₂ h2
  constructor
  · intro t ht
    rw [hdb] at ht
    replace ht : (updateFirst (fun x => x.id == tid) (doneUpdate m)
        db.tasks).find? (fun x => x.id == tid) = some t := ht
    rw [updateFirst_find? (fun x => x.id == tid) (doneUpdate m) db.tasks
      (fun a => rfl), hfind] at ht
    simp only [Option.map_some'] at ht
    cases ht
    simp [doneUpdate]
  · intro t ht
    rw [hdb2] at ht
    replace ht : (updateFirst (fun x => x.id == tid) (problemUpdate m)
        db.tasks).find? (fun x => x.id == tid) = some t := ht
    rw [updateFirst_find? (fun x => x.id == tid) (problemUpdate m) db.tasks
      (fun a => rfl), hfind2] at ht
    simp only [Option.map_some'] at ht
    cases ht
    simp [problemUpdate]

theorem state_transitions_enforce_mutual_exclusion_witness :
    (∀ t, exDbDone.tasks.find? (fun t => t.id == "t1") = some t →
      ¬(t.done = true ∧ t.has_problem = true)) ∧
    (∀ t, exDbProblem.tasks.find? (fun t => t.id == "t1") = some t →
      ¬(t.done = true ∧ t.has_problem = true)) :=
  state_transitions_enforce_mutual_exclusion 10 "b1" "t1" "msg" 1 exDb
    exDbDone exDbProblem (by rfl) (by rfl)

/-! ## Claim C10 -/

/-- Relates an old task row to its new value after a state transition on the
task with id `tid`: every field other than `done`, `has_problem` and
`problem_message` is unchanged, and rows with a different id are identical. -/
def PreservesOtherFields (tid : String) (t t' : Task) : Prop :=
  t'.id = t.id ∧ t'.name = t.name ∧ t'.description = t.description ∧
  t'.parent_id = t.parent_id ∧ t'.branch_id = t.branch_id ∧
  t'.assigned_to_id = t.assigned_to_id ∧ t'.start_date = t.start_date ∧
  t'.end_date = t.end_date ∧ t'.skill_id = t.skill_id ∧ t'.file = t.file ∧
  (t.id ≠ tid → t' = t)

/-- C10: `markDone` and `markProblem` modify only the `done`, `hasProblem`
and `problemMessage` fields of the target task; every other field of that
task, every other task, and all users, projects and branches are unchanged. -/
theorem markDone_markProblem_frame (pid : Int) (bid tid m : String) (u : Int)
    (db db₁ db₂ : Store)
    (h1 : done_task_in_branch pid bid tid m u db = .ok db₁)
    (h2 : problem_task_in_branch pid bid tid m u db = .ok db₂) :
    (db₁.users = db.users ∧ db₁.projects = db.projects ∧
      db₁.branches = db.branches ∧
      List.Forall₂ (PreservesOtherFields tid) db.tasks db₁.tasks) ∧
    (db₂.users = db.users ∧ db₂.projects = db.projects ∧
      db₂.branches = db.branches ∧
      List.Forall₂ (PreservesOtherFields tid) db.tasks db₂.tasks) := by
  obtain ⟨task, hfind, hdb⟩ := done_task_ok_elim pid bid tid m u db db₁ h1
  obtain ⟨task2, hfind2, hdb2⟩ := problem_task_ok_elim pid bid tid m u db db₂ h2
  subst hdb; subst hdb2
  refine ⟨⟨rfl, rfl, rfl, ?_⟩, ⟨rfl, rfl, rfl, ?_⟩⟩
  · exact updateFirst_forall₂ (PreservesOtherFields tid) _ _ _
      (fun x => ⟨rfl, rfl, rfl, rfl, rfl, rfl, rfl, rfl, rfl, rfl, fun _ => rfl⟩)
      (fun x hx => ⟨rfl, rfl, rfl, rfl, rfl, rfl, rfl, rfl, rfl, rfl,
        fun hne => absurd (eq_of_beq hx) hne⟩)
  · exact updateFirst_forall₂ (PreservesOtherFields tid) _ _ _
      (fun x => ⟨rfl, rfl, rfl, rfl, rfl, rfl, rfl, rfl, rfl, rfl, fun _ => rfl⟩)
      (fun x hx => ⟨rfl, rfl, rfl, rfl, rfl, rfl, rfl, rfl, rfl, rfl,
        fun hne => absurd (eq_of_beq hx) hne⟩)

theorem markDone_markProblem_frame_witness :
    (exDbDone.users = exDb.users ∧ exDbDone.projects = exDb.projects ∧
      exDbDone.branches = exDb.branches ∧
      List.Forall₂ (PreservesOtherFields "t1") exDb.tasks exDbDone.tasks) ∧
    (exDbProblem.users = exDb.users ∧ exDbProblem.projects = exDb.projects ∧
      exDbProblem.branches = exDb.branches ∧
      List.Forall₂ (PreservesOtherFields "t1") exDb.tasks exDbProblem.tasks) :=
  markDone_markProblem_frame 10 "b1" "t1" "msg" 1 exDb exDbDone exDbProblem
    (by rfl) (by rfl)

/-! ## Claim C9 -/

/-- C9: a task operation given a branch id (for `add_task`) or task id (for
the per-task operations) that is absent, or that exists but belongs to a
different owner, fails with the 404 `NotFound` error for every acting user —
membership is never consulted. -/
theorem missing_or_mismatched_ids_give_not_found (db : Store) (pid : Int)
    (bid bidA bidM tidA tidM : String) (brM : Branch) (tkM : Task)
    (h1 : db.branches.find? (fun b => b.id == bidA) = none)
    (h2 : db.branches.find? (fun b => b.id == bidM) = some brM)
    (h3 : brM.project_id ≠ pid)
    (h4 : db.tasks.find? (fun t => t.id == tidA) = none)
    (h5 : db.tasks.find? (fun t => t.id == tidM) = some tkM)
    (h6 : tkM.branch_id ≠ bid) :
    ∀ (u : Int) (data : TaskData) (nid m : String),
      add_task pid bidA data u nid db = .error ⟨"Branch not found", 404⟩ ∧
      add_task pid bidM data u nid db = .error ⟨"Branch not found", 404⟩ ∧
      edit_task_in_branch pid bid tidA data u db = .error ⟨"Task not found", 404⟩ ∧
      edit_task_in_branch pid bid tidM data u db = .error ⟨"Task not found", 404⟩ ∧
      delete_task_in_branch pid bid tidA u db = .error ⟨"Task not found", 404⟩ ∧
      delete_task_in_branch pid bid tidM u db = .error ⟨"Task not found", 404⟩ ∧
      done_task_in_branch pid bid tidA m u db = .error ⟨"Task not found", 404⟩ ∧
      done_task_in_branch pid bid tidM m u db = .error ⟨"Task not found", 404⟩ ∧
      problem_task_in_branch pid bid tidA m u db = .error ⟨"Task not found", 404⟩ ∧
      problem_task_in_branch pid bid tidM m u db = .error ⟨"Task not found", 404⟩ := by
  intro u data nid m
  refine ⟨?_, ?_, ?_, ?_, ?_, ?_, ?_, ?_, ?_, ?_⟩
  · simp [add_task, h1]
  · simp [add_task, h2, bne_iff_ne, h3]
  · simp [edit_task_in_branch, h4]
  · simp [edit_task_in_branch, h5, bne_iff_ne, h6]
  · simp [delete_task_in_branch, h4]
  · simp [delete_task_in_branch, h5, bne_iff_ne, h6]
  · simp [done_task_in_branch, h4]
  · simp [done_task_in_branch, h5, bne_iff_ne, h6]
  · simp [problem_task_in_branch, h4]
  · simp [problem_task_in_branch, h5, bne_iff_ne, h6]

/-- Sample well-formed request payload. -/
def sampleTaskData : TaskData :=
  { title := some "N", description := some "D", assignedTo := none,
    skillId := none, startDate := none, endDate := none, file := none,
    problemMessage := none, done := none, hasProblem := none }

theorem missing_or_mismatched_ids_give_not_found_witness :
    add_task 10 "zz" sampleTaskData 2 "n1" exDb = .error ⟨"Branch not found", 404⟩ ∧
    add_task 10 "b9" sampleTaskData 2 "n1" exDb = .error ⟨"Branch not found", 404⟩ ∧
    edit_task_in_branch 10 "b1" "zz" sampleTaskData 2 exDb = .error ⟨"Task not found", 404⟩ ∧
    edit_task_in_branch 10 "b1" "t9" sampleTaskData 2 exDb = .error ⟨"Task not found", 404⟩ ∧
    delete_task_in_branch 10 "b1" "zz" 2 exDb = .error ⟨"Task not found", 404⟩ ∧
    delete_task_in_branch 10 "b1" "t9" 2 exDb = .error ⟨"Task not found", 404⟩ ∧
    done_task_in_branch 10 "b1" "zz" "m" 2 exDb = .error ⟨"Task not found", 404⟩ ∧
    done_task_in_branch 10 "b1" "t9" "m" 2 exDb = .error ⟨"Task not found", 404⟩ ∧
    problem_task_in_branch 10 "b1" "zz" "m" 2 exDb = .error ⟨"Task not found", 404⟩ ∧
    problem_task_in_branch 10 "b1" "t9" "m" 2 exDb = .error ⟨"Task not found", 404⟩ :=
  missing_or_mismatched_ids_give_not_found exDb 10 "b1" "zz" "b9" "zz" "t9"
    branch9 task9 (by rfl) (by rfl) (by decide) (by rfl) (by rfl) (by decide)
    2 sampleTaskData "n1" "m"

/-! ## Claim C4 -/

/-- Request payload for a `createTask` call supplying distinct start and end
dates. -/
def c4TaskData : TaskData :=
  { title := some "N", description := some "D", assignedTo := none,
    skillId := none, startDate := some "01.05.2024",
    endDate := some "31.12.2024", file := none, problemMessage := none,
    done := none, hasProblem := none }

/-- The task row `add_task` actually stores for `c4TaskData`. -/
def c4NewTask : Task :=
  { id := "n1", name := "N", description := some "D", parent_id := none,
    branch_id := "b1", assigned_to_id := none, done := false,
    has_problem := false, problem_message := none,
    start_date := some ⟨2024, 5, 1, 0, 0, 0, 0⟩,
    end_date := some ⟨2024, 5, 1, 0, 0, 0, 0⟩, skill_id := none, file := none }

def c4Db : Store := { exDb with tasks := exDb.tasks ++ [c4NewTask] }

/-- C4: `add_task` called with `startDate = "01.05.2024"` and
`endDate = "31.12.2024"` stores the parse of the *startDate* input as the end
date (line 257 of src/main.py parses `task_data["startDate"]` in the endDate
branch), so the stored end date is 2024-05-01, not the parse of the endDate
input 2024-12-31 — contradicting the independent-parse reading. -/
theorem add_task_end_date_parses_start_date_input :
    parse_date "31.12.2024" = some ⟨2024, 12, 31, 0, 0, 0, 0⟩ ∧
    add_task 10 "b1" c4TaskData 1 "n1" exDb = .ok c4Db ∧
    c4Db.tasks.find? (fun t => t.id == "n1") = some c4NewTask ∧
    c4NewTask.end_date = some ⟨2024, 5, 1, 0, 0, 0, 0⟩ ∧
    c4NewTask.end_date ≠ some ⟨2024, 12, 31, 0, 0, 0, 0⟩ := by decide

/-! ## Claim C5 -/

/-- An `editTask` request that supplies only the required `title` and
`description` keys; `assignedTo`, `skillId`, `file`, `problemMessage`,
`startDate`, `endDate` are absent. -/
def c5EditData : TaskData :=
  { title := some "T1b", description := some "D1b", assignedTo := none,
    skillId := none, startDate := none, endDate := none, file := none,
    problemMessage := none, done := none, hasProblem := none }

/-- The row `edit_task_in_branch` actually leaves behind for `c5EditData`:
the four unsupplied optional fields are overwritten with `None`. -/
def c5Task : Task :=
  { task1 with
    name := "T1b",
    description := some "D1b",
    assigned_to_id := none,
    skill_id := none,
    file := none,
    problem_message := none }

def c5Db : Store :=
  { exDb with tasks := [c5Task, task2, task9] }

/-- C5 counterexample: on a task with `assignedTo = 5`, `skillId = 7`,
`file = "f.txt"`, `problemMessage = "old"`, an edit request that does not
supply those fields resets all four to `None` instead of keeping the stored
values (the dates, by contrast, are kept). -/
theorem edit_task_unsupplied_fields_reset_counterexample :
    task1.assigned_to_id = some 5 ∧ task1.skill_id = some 7 ∧
    task1.file = some "f.txt" ∧ task1.problem_message = some "old" ∧
    exDb.tasks.find? (fun t => t.id == "t1") = some task1 ∧
    edit_task_in_branch 10 "b1" "t1" c5EditData 1 exDb = .ok c5Db ∧
    c5Db.tasks.find? (fun t => t.id == "t1") = some c5Task ∧
    c5Task.assigned_to_id = none ∧ c5Task.skill_id = none ∧
    c5Task.file = none ∧ c5Task.problem_message = none ∧
    c5Task.start_date = task1.start_date ∧
    c5Task.end_date = task1.end_date := by decide

/-- Dissection of a successful `edit_task_in_branch` call. -/
theorem edit_task_ok_elim (pid : Int) (bid tid : String) (data : TaskData)
    (u : Int) (db db' : Store)
    (h : edit_task_in_branch pid bid tid data u db = .ok db') :
    ∃ task title desc, db.tasks.find? (fun t => t.id == tid) = some task ∧
      data.title = some title ∧ data.description = some desc ∧
      db' = { db with
        tasks := updateFirst (fun t => t.id == tid) (editUpdate data title desc) db.tasks } := by
  simp only [edit_task_in_branch] at h
  split at h
  · simp at h
  next task hfind =>
    split at h
    · simp at h
    · split at h
      · simp at h
      next branch hbr =>
        split at h
        · simp at h
        next project hproj =>
          split at h
          next hmem =>
            split at h
            next title desc htitle hdesc =>
              simp only [Except.ok.injEq] at h
              exact ⟨task, title, desc, hfind, htitle, hdesc, h.symm⟩
            next => simp at h
          next hmem => simp at h

/-- C5 amended: in a successful `editTask`, only `startDate` and `endDate`
keep their previous stored values when their inputs are not supplied (or not
truthy); `assignedTo`, `skillId`, `file` and `problemMessage` are always
overwritten with the request's value — `None` when the input is absent — and
`title` / `description` (required inputs) are always overwritten. -/
theorem edit_task_field_update_semantics (pid : Int) (bid tid : String)
    (data : TaskData) (u : Int) (db db' : Store)
    (h : edit_task_in_branch pid bid tid data u db = .ok db') :
    ∃ task t', db.tasks.find? (fun t => t.id == tid) = some task ∧
      db'.tasks.find? (fun t => t.id == tid) = some t' ∧
      t'.start_date = (if truthyStr data.startDate then
        parse_date (data.startDate.getD "") else task.start_date) ∧
      t'.end_date = (if truthyStr data.endDate then
        parse_date (data.endDate.getD "") else task.end_date) ∧
      t'.assigned_to_id = data.assignedTo ∧ t'.skill_id = data.skillId ∧
      t'.file = data.file ∧ t'.problem_message = data.problemMessage ∧
      data.title = some t'.name ∧ data.description = t'.description := by
  obtain ⟨task, title, desc, hfind, htitle, hdesc, hdb⟩ :=
    edit_task_ok_elim pid bid tid data u db db' h
  refine ⟨task, editUpdate data title desc task, hfind, ?_, rfl, rfl, rfl,
    rfl, rfl, rfl, htitle, hdesc⟩
  rw [hdb]
  show (updateFirst (fun t => t.id == tid) (editUpdate data title desc)
    db.tasks).find? _ = _
  rw [updateFirst_find? (fun x => x.id == tid) (editUpdate data title desc)
    db.tasks (fun a => rfl), hfind]
  rfl

theorem edit_task_field_update_semantics_witness :
    ∃ task t', exDb.tasks.find? (fun t => t.id == "t1") = some task ∧
      c5Db.tasks.find? (fun t => t.id == "t1") = some t' ∧
      t'.start_date = (if truthyStr c5EditData.startDate then
        parse_date (c5EditData.startDate.getD "") else task.start_date) ∧
      t'.end_date = (if truthyStr c5EditData.endDate then
        parse_date (c5EditData.endDate.getD "") else task.end_date) ∧
      t'.assigned_to_id = c5EditData.assignedTo ∧
      t'.skill_id = c5EditData.skillId ∧
      t'.file = c5EditData.file ∧
      t'.problem_message = c5EditData.problemMessage ∧
      c5EditData.title = some t'.name ∧
      c5EditData.description = t'.description :=
  edit_task_field_update_semantics 10 "b1" "t1" c5EditData 1 exDb c5Db
    (by decide)

/-! ## Aggregation lemmas for C3 and C1 -/

/-- The tasks of all branches of project `pid`, in the traversal order of
`get_project_info`'s nested loop. -/
def projectTasks (db : Store) (pid : Int) : List Task :=
  ((db.branches.filter (fun b => b.project_id == pid)).map
    (fun b => tasksOf db b.id)).flatten

/-- The inner task loop of `get_project_info` adds, to each accumulator
component, the count of tasks satisfying the corresponding test. -/
theorem foldl_taskStep (now : PyDateTime) (l : List Task) (acc : Statistics) :
    l.foldl (taskStep now) acc =
      ⟨acc.taskCount + l.length,
       acc.completedTasksCount + l.countP (fun t => t.done),
       acc.delayedTasksCount + l.countP (fun t => taskDelayed t now),
       acc.problemTasksCount + l.countP (fun t => t.has_problem)⟩ := by
  induction l generalizing acc with
  | nil => simp
  | cons x l ih =>
    rw [List.foldl_cons, ih]
    cases hd : x.done <;> cases hp : x.has_problem <;>
        cases hdel : taskDelayed x now <;>
      · simp only [taskStep, List.countP_cons, List.length_cons, hd, hp, hdel,
          Statistics.mk.injEq, if_true, if_false, Bool.false_eq_true]
        omega

/-- The nested branch/task loop of `get_project_info` computes, per counter,
the sum over branches of the per-branch counts. -/
theorem projectCounters_eq (db : Store) (now : PyDateTime)
    (bs : List Branch) :
    projectCounters db now bs =
      ⟨(bs.map (fun b => (tasksOf db b.id).length)).sum,
       (bs.map (fun b => (tasksOf db b.id).countP (fun t => t.done))).sum,
       (bs.map (fun b =>
         (tasksOf db b.id).countP (fun t => taskDelayed t now))).sum,
       (bs.map (fun b =>
         (tasksOf db b.id).countP (fun t => t.has_problem))).sum⟩ := by
  suffices hgen : ∀ acc : Statistics,
      bs.foldl (fun acc b => (tasksOf db b.id).foldl (taskStep now) acc) acc =
        ⟨acc.taskCount + (bs.map (fun b => (tasksOf db b.id).length)).sum,
         acc.completedTasksCount +
           (bs.map (fun b => (tasksOf db b.id).countP (fun t => t.done))).sum,
         acc.delayedTasksCount + (bs.map (fun b =>
           (tasksOf db b.id).countP (fun t => taskDelayed t now))).sum,
         acc.problemTasksCount + (bs.map (fun b =>
           (tasksOf db b.id).countP (fun t => t.has_problem))).sum⟩ by
    rw [projectCounters, hgen ⟨0, 0, 0, 0⟩]
    simp
  induction bs with
  | nil => intro acc; simp
  | cons b bs ih =>
    intro acc
    rw [List.foldl_cons, foldl_taskStep, ih]
    simp only [List.map_cons, List.sum_cons, Statistics.mk.injEq]
    refine ⟨?_, ?_, ?_, ?_⟩ <;> omega

/-- Pointwise agreement of the branch-level (DTO/isoformat round-trip) and
project-level (row) delayed tests, given that the round-trip is lossless on
the task's stored end date. -/
theorem dtoDelayed_mkTaskDTO (t : Task) (now : PyDateTime)
    (h : ∀ d, t.end_date = some d →
      fromisoformat (PyDateTime.isoformat d) = some d ∧
      (PyDateTime.isoformat d).isEmpty = false) :
    dtoDelayed (mkTaskDTO t) now = taskDelayed t now := by
  cases he : t.end_date with
  | none => simp [dtoDelayed, taskDelayed, mkTaskDTO, he]
  | some d =>
    obtain ⟨h1, h2⟩ := h d he
    simp [dtoDelayed, taskDelayed, mkTaskDTO, he, h1, h2]

/-- The per-branch statistics of the DTO list coincide with the row-level
counts, given the isoformat round-trip on the branch's task rows. -/
theorem branchStatistics_map (now : PyDateTime) (l : List Task)
    (hrt : ∀ t ∈ l, ∀ d, t.end_date = some d →
      fromisoformat (PyDateTime.isoformat d) = some d ∧
      (PyDateTime.isoformat d).isEmpty = false) :
    branchStatistics (l.map mkTaskDTO) now =
      ⟨l.length, l.countP (fun t => t.done),
       l.countP (fun t => taskDelayed t now),
       l.countP (fun t => t.has_problem)⟩ := by
  unfold branchStatistics
  have h1 : (l.map mkTaskDTO).length = l.length := by simp
  have h2 : (l.map mkTaskDTO).countP (fun t => t.done) =
      l.countP (fun t => t.done) := by
    rw [List.countP_map]; rfl
  have h3 : (l.map mkTaskDTO).countP (fun t => dtoDelayed t now) =
      l.countP (fun t => taskDelayed t now) := by
    rw [List.countP_map]
    refine List.countP_congr (fun t ht => ?_)
    have hd := dtoDelayed_mkTaskDTO t now (hrt t ht)
    simp [Function.comp_def, hd]
  have h4 : (l.map mkTaskDTO).countP (fun t => t.hasProblem) =
      l.countP (fun t => t.has_problem) := by
    rw [List.countP_map]; rfl
  rw [h1, h2, h3, h4]

/-- Dissection of a successful `get_project_info` call. -/
theorem get_project_info_ok_elim (pid : Int) (u : Int) (now : PyDateTime)
    (db : Store) (info : ProjectInfo)
    (h : get_project_info pid u now db = .ok info) :
    info.branches = (db.branches.filter (fun b => b.project_id == pid)).map
      (mkBranchDTO db now) ∧
    info.statistics = projectCounters db now
      (db.branches.filter (fun b => b.project_id == pid)) := by
  simp only [get_project_info] at h
  split at h
  · simp at h
  next project hp =>
    split at h
    next hmem =>
      simp only [Except.ok.injEq] at h
      subst h
      exact ⟨rfl, rfl⟩
    next => simp at h

/-! ## Claim C3 -/

/-- C3: in the summary, for a fixed `asOf`, a task is counted completed iff
`done`, counted problem iff `hasProblem`, counted delayed iff it has an
`endDate` strictly before `asOf` and `done` is false; and the delayed test
is independent of the `hasProblem` flag. -/
theorem summary_classification (pid : Int) (u : Int) (now : PyDateTime)
    (db : Store) (info : ProjectInfo)
    (h : get_project_info pid u now db = .ok info) :
    info.statistics.completedTasksCount =
      (projectTasks db pid).countP (fun t => t.done) ∧
    info.statistics.problemTasksCount =
      (projectTasks db pid).countP (fun t => t.has_problem) ∧
    info.statistics.delayedTasksCount =
      (projectTasks db pid).countP (fun t =>
        match t.end_date with
        | some d => d.lt now && !t.done
        | none => false) ∧
    (∀ (t : Task) (b : Bool),
      taskDelayed { t with has_problem := b } now = taskDelayed t now) := by
  obtain ⟨hbr, hst⟩ := get_project_info_ok_elim pid u now db info h
  rw [hst, projectCounters_eq]
  have hpred : (fun (t : Task) => match t.end_date with
      | some d => d.lt now && !t.done
      | none => false) = (fun t => taskDelayed t now) := by
    funext t
    cases he : t.end_date <;> simp [taskDelayed, he]
  refine ⟨?_, ?_, ?_, fun t b => rfl⟩
  · rw [projectTasks, List.countP_flatten, List.map_map]; rfl
  · rw [projectTasks, List.countP_flatten, List.map_map]; rfl
  · rw [projectTasks, List.countP_flatten, List.map_map, hpred]
    simp [Function.comp_def]

def exNow : PyDateTime := ⟨2024, 5, 1, 0, 0, 0, 0⟩

/-- The summary `get_project_info` produces on the sample store. -/
def exInfo : ProjectInfo :=
  { projectId := 10,
    branches := (exDb.branches.filter (fun b => b.project_id == 10)).map
      (mkBranchDTO exDb exNow),
    statistics := projectCounters exDb exNow
      (exDb.branches.filter (fun b => b.project_id == 10)) }

theorem summary_classification_witness :
    exInfo.statistics.completedTasksCount =
      (projectTasks exDb 10).countP (fun t => t.done) ∧
    exInfo.statistics.problemTasksCount =
      (projectTasks exDb 10).countP (fun t => t.has_problem) ∧
    exInfo.statistics.delayedTasksCount =
      (projectTasks exDb 10).countP (fun t =>
        match t.end_date with
        | some d => d.lt exNow && !t.done
        | none => false) ∧
    (∀ (t : Task) (b : Bool),
      taskDelayed { t with has_problem := b } exNow = taskDelayed t exNow) :=
  summary_classification 10 1 exNow exDb exInfo (by rfl)

/-! ## Claim C1 -/

/-- C1: for a fixed `asOf`, each of the four project-level counters of the
summary equals the sum of the corresponding per-branch counters over the
branches reported in the same summary.  The hypothesis `hrt` states that the
`isoformat`/`fromisoformat` round-trip through the task DTO is lossless on
the stored end dates (true of every datetime `parse_date` can store). -/
theorem summary_project_totals_are_branch_sums (pid : Int) (u : Int)
    (now : PyDateTime) (db : Store) (info : ProjectInfo)
    (h : get_project_info pid u now db = .ok info)
    (hrt : ∀ t ∈ db.tasks, ∀ d, t.end_date = some d →
      fromisoformat (PyDateTime.isoformat d) = some d ∧
      (PyDateTime.isoformat d).isEmpty = false) :
    info.statistics.taskCount =
      (info.branches.map (fun b => b.statistics.taskCount)).sum ∧
    info.statistics.completedTasksCount =
      (info.branches.map (fun b => b.statistics.completedTasksCount)).sum ∧
    info.statistics.delayedTasksCount =
      (info.branches.map (fun b => b.statistics.delayedTasksCount)).sum ∧
    info.statistics.problemTasksCount =
      (info.branches.map (fun b => b.statistics.problemTasksCount)).sum := by
  obtain ⟨hbr, hst⟩ := get_project_info_ok_elim pid u now db info h
  have hstat : ∀ b : Branch, (mkBranchDTO db now b).statistics =
      ⟨(tasksOf db b.id).length,
       (tasksOf db b.id).countP (fun t => t.done),
       (tasksOf db b.id).countP (fun t => taskDelayed t now),
       (tasksOf db b.id).countP (fun t => t.has_problem)⟩ := by
    intro b
    show branchStatistics ((tasksOf db b.id).map mkTaskDTO) now = _
    exact branchStatistics_map now (tasksOf db b.id)
      (fun t ht => hrt t (List.mem_of_mem_filter ht))
  rw [hbr, hst, projectCounters_eq]
  simp only [List.map_map, Function.comp_def, hstat]
  exact ⟨trivial, trivial, trivial, trivial⟩

theorem summary_project_totals_are_branch_sums_witness :
    exInfo.statistics.taskCount =
      (exInfo.branches.map (fun b => b.statistics.taskCount)).sum ∧
    exInfo.statistics.completedTasksCount =
      (exInfo.branches.map (fun b => b.statistics.completedTasksCount)).sum ∧
    exInfo.statistics.delayedTasksCount =
      (exInfo.branches.map (fun b => b.statistics.delayedTasksCount)).sum ∧
    exInfo.statistics.problemTasksCount =
      (exInfo.branches.map (fun b => b.statistics.problemTasksCount)).sum :=
  summary_project_totals_are_branch_sums 10 1 exNow exDb exInfo (by rfl)
    (by decide)

/-! ## Claim C6 -/

/-- The call failed with the 403 `ForbiddenError`. -/
def isForbidden : Except AppException Store → Prop
  | .error e => e.status_code = 403
  | .ok _ => False

/-- The read-only summary call failed with the 403 `ForbiddenError`. -/
def isForbiddenInfo : Except AppException ProjectInfo → Prop
  | .error e => e.status_code = 403
  | .ok _ => False

theorem not_isForbidden_ok (a : Store) : ¬ isForbidden (Except.ok a) :=
  fun h => h

/-- The store after `add_user_to_project` appends `u` to the members of the
project with id `pid`. -/
def addMemberStore (pid u : Int) (db : Store) : Store :=
  { db with
    projects := updateFirst (fun p => p.id == pid) (fun p => { p with members := p.members ++ [u] }) db.projects }

theorem not_isForbidden_internal :
    ¬ isForbidden (Except.error internalError) := by
  intro h
  have h' : (500 : Nat) = 403 := h
  exact absurd h' (by decide)

/-- C6: with the referenced project, branch and task resolving correctly, a
user `u` outside the project's member set receives `ForbiddenError` from
every branch/task operation and from the summary; and after a member adds
`u` to the project via `add_user_to_project`, none of those calls fails with
`ForbiddenError` any more. -/
theorem nonmember_forbidden_until_added (db : Store) (pid : Int)
    (bid tid : String) (u actor : Int) (proj : Project) (br : Branch)
    (tk : Task) (usr : User)
    (hp : db.projects.find? (fun p => p.id == pid) = some proj)
    (hb : db.branches.find? (fun b => b.id == bid) = some br)
    (hbp : br.project_id = pid)
    (ht : db.tasks.find? (fun t => t.id == tid) = some tk)
    (htb : tk.branch_id = bid)
    (hu : u ∉ proj.members)
    (hactor : actor ∈ proj.members)
    (husr : db.users.find? (fun v => v.id == u) = some usr)
    (husrid : usr.id = u) :
    (∀ (name : Option String) (nid : String) (bdata : BranchEditData)
        (data : TaskData) (m : String) (now : PyDateTime),
      bdata.id = some bid →
      isForbidden (add_branch pid name u nid db) ∧
      isForbidden (edit_project_branch pid bdata u db) ∧
      isForbidden (delete_project_branch pid (some bid) u db) ∧
      isForbidden (add_task pid bid data u nid db) ∧
      isForbidden (edit_task_in_branch pid bid tid data u db) ∧
      isForbidden (delete_task_in_branch pid bid tid u db) ∧
      isForbidden (done_task_in_branch pid bid tid m u db) ∧
      isForbidden (problem_task_in_branch pid bid tid m u db) ∧
      isForbiddenInfo (get_project_info pid u now db)) ∧
    (∃ db', add_user_to_project pid u actor db = .ok db' ∧
      ∀ (name : Option String) (nid : String) (bdata : BranchEditData)
          (data : TaskData) (m : String) (now : PyDateTime),
        bdata.id = some bid →
        ¬ isForbidden (add_branch pid name u nid db') ∧
        ¬ isForbidden (edit_project_branch pid bdata u db') ∧
        ¬ isForbidden (delete_project_branch pid (some bid) u db') ∧
        ¬ isForbidden (add_task pid bid data u nid db') ∧
        ¬ isForbidden (edit_task_in_branch pid bid tid data u db') ∧
        ¬ isForbidden (delete_task_in_branch pid bid tid u db') ∧
        ¬ isForbidden (done_task_in_branch pid bid tid m u db') ∧
        ¬ isForbidden (problem_task_in_branch pid bid tid m u db') ∧
        ¬ isForbiddenInfo (get_project_info pid u now db')) := by
  have hproj_beq := List.find?_some hp
  have hproj_id : proj.id = pid := eq_of_beq hproj_beq
  constructor
  · intro name nid bdata data m now hbid
    refine ⟨?_, ?_, ?_, ?_, ?_, ?_, ?_, ?_, ?_⟩
    · simp only [add_branch, hp]
      rw [if_neg hu]
      exact rfl
    · simp only [edit_project_branch, hbid, hb, hbp, bne_self_eq_false,
        Bool.false_eq_true, if_false, hp]
      rw [if_neg hu]
      exact rfl
    · simp only [delete_project_branch, hb, hbp, bne_self_eq_false,
        Bool.false_eq_true, if_false, hp]
      rw [if_neg hu]
      exact rfl
    · simp only [add_task, hb, hbp, bne_self_eq_false,
        Bool.false_eq_true, if_false, hp]
      rw [if_neg hu]
      exact rfl
    · simp only [edit_task_in_branch, ht, htb, bne_self_eq_false,
        Bool.false_eq_true, if_false, hb, hbp, hp]
      rw [if_neg hu]
      exact rfl
    · simp only [delete_task_in_branch, ht, htb, bne_self_eq_false,
        Bool.false_eq_true, if_false, hb, hbp, hp]
      rw [if_neg hu]
      exact rfl
    · simp only [done_task_in_branch, ht, htb, bne_self_eq_false,
        Bool.false_eq_true, if_false, hb, hbp, hp]
      rw [if_neg hu]
      exact rfl
    · simp only [problem_task_in_branch, ht, htb, bne_self_eq_false,
        Bool.false_eq_true, if_false, hb, hbp, hp]
      rw [if_neg hu]
      exact rfl
    · simp only [get_project_info, hp]
      rw [if_neg hu]
      exact rfl
  · refine ⟨addMemberStore pid u db, ?_, ?_⟩
    · simp only [add_user_to_project, hp, husr, addMemberStore]
      rw [if_pos hactor, if_neg (husrid ▸ hu)]
      simp only [husrid, hproj_id]
    · have hfind' : (updateFirst (fun p => p.id == pid)
          (fun p => { p with members := p.members ++ [u] })
          db.projects).find? (fun p => p.id == pid) =
          some { proj with members := proj.members ++ [u] } := by
        rw [updateFirst_find? (fun p => p.id == pid)
          (fun p => { p with members := p.members ++ [u] }) db.projects
          (fun a => rfl), hp]
        rfl
      have hmem' : u ∈ proj.members ++ [u] :=
        List.mem_append_right _ (List.mem_singleton_self u)
      intro name nid bdata data m now hbid
      refine ⟨?_, ?_, ?_, ?_, ?_, ?_, ?_, ?_, ?_⟩
      · simp only [add_branch, addMemberStore, hfind']
        rw [if_pos hmem']
        cases name
        · exact not_isForbidden_internal
        · exact not_isForbidden_ok _
      · simp only [edit_project_branch, hbid, hb, hbp, bne_self_eq_false,
          Bool.false_eq_true, if_false, addMemberStore, hfind']
        rw [if_pos hmem']
        cases bdata.name
        · exact not_isForbidden_internal
        · exact not_isForbidden_ok _
      · simp only [delete_project_branch, hb, hbp, bne_self_eq_false,
          Bool.false_eq_true, if_false, addMemberStore, hfind']
        rw [if_pos hmem']
        exact not_isForbidden_ok _
      · simp only [add_task, hb, hbp, bne_self_eq_false,
          Bool.false_eq_true, if_false, addMemberStore, hfind']
        rw [if_pos hmem']
        split
        · exact not_isForbidden_internal
        · split
          · exact not_isForbidden_ok _
          · exact not_isForbidden_internal
      · simp only [edit_task_in_branch, ht, htb, bne_self_eq_false,
          Bool.false_eq_true, if_false, hb, hbp, addMemberStore, hfind']
        rw [if_pos hmem']
        split
        · exact not_isForbidden_ok _
        · exact not_isForbidden_internal
      · simp only [delete_task_in_branch, ht, htb, bne_self_eq_false,
          Bool.false_eq_true, if_false, hb, hbp, addMemberStore, hfind']
        rw [if_pos hmem']
        exact not_isForbidden_ok _
      · simp only [done_task_in_branch, ht, htb, bne_self_eq_false,
          Bool.false_eq_true, if_false, hb, hbp, addMemberStore, hfind']
        rw [if_pos hmem']
        exact not_isForbidden_ok _
      · simp only [problem_task_in_branch, ht, htb, bne_self_eq_false,
          Bool.false_eq_true, if_false, hb, hbp, addMemberStore, hfind']
        rw [if_pos hmem']
        exact not_isForbidden_ok _
      · simp only [get_project_info, addMemberStore, hfind']
        rw [if_pos hmem']
        exact fun h => h

def c6Bdata : BranchEditData :=
  { id := some "b1", name := some "NB2", description := none }

theorem nonmember_forbidden_until_added_witness :
    (isForbidden (add_branch 10 (some "NB") 2 "nb1" exDb) ∧
     isForbidden (edit_project_branch 10 c6Bdata 2 exDb) ∧
     isForbidden (delete_project_branch 10 (some "b1") 2 exDb) ∧
     isForbidden (add_task 10 "b1" sampleTaskData 2 "nb1" exDb) ∧
     isForbidden (edit_task_in_branch 10 "b1" "t1" sampleTaskData 2 exDb) ∧
     isForbidden (delete_task_in_branch 10 "b1" "t1" 2 exDb) ∧
     isForbidden (done_task_in_branch 10 "b1" "t1" "m" 2 exDb) ∧
     isForbidden (problem_task_in_branch 10 "b1" "t1" "m" 2 exDb) ∧
     isForbiddenInfo (get_project_info 10 2 exNow exDb)) ∧
    add_user_to_project 10 2 1 exDb = .ok (addMemberStore 10 2 exDb) ∧
    (¬ isForbidden (add_branch 10 (some "NB") 2 "nb1" (addMemberStore 10 2 exDb)) ∧
     ¬ isForbidden (edit_project_branch 10 c6Bdata 2 (addMemberStore 10 2 exDb)) ∧
     ¬ isForbidden (delete_project_branch 10 (some "b1") 2 (addMemberStore 10 2 exDb)) ∧
     ¬ isForbidden (add_task 10 "b1" sampleTaskData 2 "nb1" (addMemberStore 10 2 exDb)) ∧
     ¬ isForbidden (edit_task_in_branch 10 "b1" "t1" sampleTaskData 2 (addMemberStore 10 2 exDb)) ∧
     ¬ isForbidden (delete_task_in_branch 10 "b1" "t1" 2 (addMemberStore 10 2 exDb)) ∧
     ¬ isForbidden (done_task_in_branch 10 "b1" "t1" "m" 2 (addMemberStore 10 2 exDb)) ∧
     ¬ isForbidden (problem_task_in_branch 10 "b1" "t1" "m" 2 (addMemberStore 10 2 exDb)) ∧
     ¬ isForbiddenInfo (get_project_info 10 2 exNow (addMemberStore 10 2 exDb))) := by
  obtain ⟨h1, db', hok, h2⟩ :=
    nonmember_forbidden_until_added exDb 10 "b1" "t1" 2 1 project10 branch1
      task1 user2 rfl rfl rfl rfl rfl (by decide) (by decide) rfl rfl
  have h0 : add_user_to_project 10 2 1 exDb = .ok (addMemberStore 10 2 exDb) := rfl
  have hdb : db' = addMemberStore 10 2 exDb := by
    rw [hok] at h0
    injection h0
  subst hdb
  exact ⟨h1 (some "NB") "nb1" c6Bdata sampleTaskData "m" exNow rfl, h0,
    h2 (some "NB") "nb1" c6Bdata sampleTaskData "m" exNow rfl⟩

end TaskManager

/-! ## Claim C8 -/

/-- C8: `parse_date` first attempts ISO-8601 and returns that parse on
success, otherwise attempts `DD.MM.YYYY` (day first, then month, then year)
and returns that parse on success, otherwise returns `none` rather than
raising; `"2024-05-01T00:00:00"` parses via ISO, `"01.05.2024"` parses as
day 1, month 5, year 2024, and `"not-a-date"` yields `none`. -/
theorem parse_date_iso_then_dmy_else_none :
    (∀ s : String, parse_date s =
      match fromisoformat s with
      | some d => some d
      | none => strptimeDMY s) ∧
    parse_date "2024-05-01T00:00:00" = some ⟨2024, 5, 1, 0, 0, 0, 0⟩ ∧
    parse_date "01.05.2024" = some ⟨2024, 5, 1, 0, 0, 0, 0⟩ ∧
    parse_date "not-a-date" = none := by
  refine ⟨?_, by decide, by decide, by decide⟩
  intro s
  by_cases h : s.isEmpty
  · rw [String.isEmpty_iff] at h
    subst h
    decide
  · simp only [parse_date, h, Bool.false_eq_true, if_false]

theorem parse_date_iso_then_dmy_else_none_witness :
    parse_date "7.7.2000" =
      match fromisoformat "7.7.2000" with
      | some d => some d
      | none => strptimeDMY "7.7.2000" :=
  parse_date_iso_then_dmy_else_none.1 "7.7.2000"

